import Mathlib

/-
Verification development for the ngSe repository (src/ngse.py and
src/ngSe/browser.py), a retry-aware convenience layer over a browser
automation driver.

The embedding models:
  * the exception classes the code raises and classifies
    (selenium exceptions plus the locally defined ElementStillThereError,
    WaitFailedError, DontRetryError, NavigationError, FrontEndError),
  * the module-level tuples element_exceptions and cant_see_exceptions,
  * the retry decorator (src/ngse.py lines 62-94): the wrapped call pops
    the reserved keyword arguments retry_timeout, retry_interval and prep,
    computes end_time = time() + retry_timeout, and loops: run prep if
    present, invoke the operation, return its result on success, and on a
    failure in element_exceptions either re-raise it (when time() > end_time)
    or sleep for the interval and go round again; any other failure
    propagates out of the try unchanged,
  * the ByDict locator registry with its NOT_ negative-key convention and
    the NegativeByClause wrapper (src/ngse.py lines 111-137 and 211-235).

Wall-clock time is modelled with rationals; the behaviour of the wrapped
operation and of the prep hook across successive invocations is given by an
oracle indexed by the invocation number, each invocation also reporting how
much time it consumed (the durations absorb the gap between the moment the
exception is raised and the moment time() is read in the handler). The
unbounded while loop is run on an explicit fuel; a result of none means the
fuel was exhausted, and the theorems quantify over every sufficient fuel.
-/

namespace NgSe

/-- Exception values raised and classified by the code. Each constructor is
one of the exception classes that appears in src/ngse.py; messages are the
single string argument the code passes. The two wrapper errors also store
the causing exception, as their constructors do. -/
inductive Exc where
  | invalidElementState (msg : String)
  | noSuchElement (msg : String)
  | elementNotVisible (msg : String)
  | elementStillThere
  | valueError (msg : String)
  | waitFailed (msg : String) (cause : Exc)
  | dontRetry (msg : String) (cause : Exc)
  | navigationError (msg : String)
  | frontEndError (msg : String)
  | keyError (msg : String)
  | otherExc (msg : String)
deriving DecidableEq, Repr

/-- Membership test for the module-level tuple element_exceptions
(src/ngse.py lines 46-52): InvalidElementStateException,
NoSuchElementException, ElementNotVisibleException, ElementStillThereError,
ValueError. An `except element_exceptions` clause catches exactly these. -/
def element_exceptions (e : Exc) : Bool :=
  match e with
  | .invalidElementState _ => true
  | .noSuchElement _ => true
  | .elementNotVisible _ => true
  | .elementStillThere => true
  | .valueError _ => true
  | _ => false

/-- Membership test for the module-level tuple cant_see_exceptions
(src/ngse.py lines 54-59): NoSuchElementException,
ElementNotVisibleException, NoSuchElementException (listed twice in the
source), ValueError. -/
def cant_see_exceptions (e : Exc) : Bool :=
  match e with
  | .noSuchElement _ => true
  | .elementNotVisible _ => true
  | .valueError _ => true
  | _ => false

/-- Single-quote character, used when modelling Python repr output. -/
def sq : String := String.singleton (Char.ofNat 39)

/-- Model of Python repr on these exception objects (class name applied to
the quoted message; string escaping inside the message is not modelled,
which is irrelevant to every claim). -/
def reprExc : Exc → String
  | .invalidElementState m => "InvalidElementStateException(" ++ sq ++ m ++ sq ++ ")"
  | .noSuchElement m => "NoSuchElementException(" ++ sq ++ m ++ sq ++ ")"
  | .elementNotVisible m => "ElementNotVisibleException(" ++ sq ++ m ++ sq ++ ")"
  | .elementStillThere => "ElementStillThereError()"
  | .valueError m => "ValueError(" ++ sq ++ m ++ sq ++ ")"
  | .waitFailed m _ => "WaitFailedError(" ++ sq ++ m ++ sq ++ ")"
  | .dontRetry m _ => "DontRetryError(" ++ sq ++ m ++ sq ++ ")"
  | .navigationError m => "NavigationError(" ++ sq ++ m ++ sq ++ ")"
  | .frontEndError m => "FrontEndError(" ++ sq ++ m ++ sq ++ ")"
  | .keyError m => "KeyError(" ++ sq ++ m ++ sq ++ ")"
  | .otherExc m => "Exception(" ++ sq ++ m ++ sq ++ ")"

/-- Constructor of WaitFailedError (src/ngse.py lines 26-33): the message
passed to Exception is "message, caused by repr(cause)" and the cause is
stored on the object. -/
def mkWaitFailedError (message : String) (cause : Exc) : Exc :=
  .waitFailed (message ++ ", caused by " ++ reprExc cause) cause

/-- Constructor of DontRetryError (src/ngse.py lines 36-43), built exactly
like WaitFailedError. -/
def mkDontRetryError (message : String) (cause : Exc) : Exc :=
  .dontRetry (message ++ ", caused by " ++ reprExc cause) cause

/-- Stored cause of the two wrapper errors; none for every other class. -/
def excCause : Exc → Option Exc
  | .waitFailed _ c => some c
  | .dontRetry _ c => some c
  | _ => none

/-- Message string carried by an exception object (args[0] in Python);
ElementStillThereError is raised with no arguments. -/
def excMessage : Exc → String
  | .invalidElementState m => m
  | .noSuchElement m => m
  | .elementNotVisible m => m
  | .elementStillThere => ""
  | .valueError m => m
  | .waitFailed m _ => m
  | .dontRetry m _ => m
  | .navigationError m => m
  | .frontEndError m => m
  | .keyError m => m
  | .otherExc m => m

/-- Behaviour oracle for one decorated call: prepRes i / prepDur i are the
outcome (none = returned normally) and duration of the i-th invocation of
the prep hook, and opRes i / opDur i the outcome and duration of the i-th
invocation of the wrapped operation, both counted from 0. -/
structure Oracle (α : Type) where
  prepDur : Nat → ℚ
  prepRes : Nat → Option Exc
  opDur : Nat → ℚ
  opRes : Nat → Except Exc α

/-- Events observable during one decorated call: a run of the prep hook, an
invocation of the wrapped operation (with its index), or a sleep. -/
inductive REvent where
  | prep
  | invoke (k : Nat)
  | sleep
deriving DecidableEq, Repr

/-- Outcome of one decorated call: the value returned or exception raised,
the number of invocations of the wrapped operation, the number of runs of
the prep hook, the event trace, and the clock when the call ended. -/
structure RetryOutcome (α : Type) where
  result : Except Exc α
  attempts : Nat
  preps : Nat
  trace : List REvent
  finalTime : ℚ

/-- Model of the while loop of the retry wrapper (src/ngse.py lines 83-92).
Arguments: fuel, then the next prep index p, the next operation index n and
the current clock t. Each pass runs prep when present (a failure raised by
prep is handled by the same except clause, since prep() is inside the try),
then the operation; on success the result is returned as is; on a failure in
element_exceptions the failure is re-raised when the clock has passed
end_time and otherwise the loop sleeps for the interval and goes round; any
other failure propagates at once. none means the fuel ran out. -/
def retryLoop {α : Type} (hasPrep : Bool) (interval endTime : ℚ) (o : Oracle α) :
    Nat → Nat → Nat → ℚ → Option (RetryOutcome α)
  | 0, _, _, _ => none
  | fuel + 1, p, n, t =>
    let pEv : List REvent := if hasPrep then [REvent.prep] else []
    let p' : Nat := if hasPrep then p + 1 else p
    let t1 : ℚ := if hasPrep then t + o.prepDur p else t
    match (if hasPrep then o.prepRes p else none) with
    | some e =>
      if element_exceptions e then
        if endTime < t1 then
          some ⟨Except.error e, n, p', pEv, t1⟩
        else
          match retryLoop hasPrep interval endTime o fuel p' n (t1 + interval) with
          | none => none
          | some out => some { out with trace := pEv ++ (REvent.sleep :: out.trace) }
      else
        some ⟨Except.error e, n, p', pEv, t1⟩
    | none =>
      let t2 : ℚ := t1 + o.opDur n
      match o.opRes n with
      | Except.ok v => some ⟨Except.ok v, n + 1, p', pEv ++ [REvent.invoke n], t2⟩
      | Except.error e =>
        if element_exceptions e then
          if endTime < t2 then
            some ⟨Except.error e, n + 1, p', pEv ++ [REvent.invoke n], t2⟩
          else
            match retryLoop hasPrep interval endTime o fuel p' (n + 1) (t2 + interval) with
            | none => none
            | some out =>
              some { out with trace := pEv ++ (REvent.invoke n :: REvent.sleep :: out.trace) }
        else
          some ⟨Except.error e, n + 1, p', pEv ++ [REvent.invoke n], t2⟩

/-- Decorator configuration: the timeout and interval given to retry. -/
structure RetryConfig where
  timeout : ℚ
  interval : ℚ
deriving DecidableEq, Repr

/-- Defaults of the retry decorator (src/ngse.py line 62):
timeout=30, interval=0.1. -/
def defaultRetryConfig : RetryConfig := ⟨30, 1 / 10⟩

/-- Model of one call of the decorated function with optional per-call
overrides (the popped retry_timeout and retry_interval keyword arguments,
none meaning absent so the decorator default is used), starting at clock t0:
end_time = t0 + retry_timeout, and the loop starts at indices 0. -/
def retryCall {α : Type} (cfg : RetryConfig) (hasPrep : Bool) (o : Oracle α)
    (tOv iOv : Option ℚ) (t0 : ℚ) (fuel : Nat) : Option (RetryOutcome α) :=
  retryLoop hasPrep (iOv.getD cfg.interval) (t0 + tOv.getD cfg.timeout) o fuel 0 0 t0

/-- Propositional shorthand: the result of an invocation is a failure that
element_exceptions classifies as transient. -/
def transientFail {α : Type} (r : Except Exc α) : Bool :=
  match r with
  | .error e => element_exceptions e
  | .ok _ => false

/-- Clock value at the moment the except handler compares time() with
end_time, on the (m+1)-st pass of a run whose prep hook never raises:
pass indices advance and each retried pass adds its durations plus one
sleep interval. -/
def clockAt {α : Type} (hasPrep : Bool) (o : Oracle α) (interval : ℚ) :
    Nat → Nat → ℚ → Nat → ℚ
  | p, n, t, 0 => (if hasPrep then t + o.prepDur p else t) + o.opDur n
  | p, n, t, m + 1 =>
    clockAt hasPrep o interval (if hasPrep then p + 1 else p) (n + 1)
      ((if hasPrep then t + o.prepDur p else t) + o.opDur n + interval) m

/-- Events of one pass of the loop: the prep run when present, then the
invocation of the operation. -/
def passEvents (hasPrep : Bool) (n : Nat) : List REvent :=
  (if hasPrep then [REvent.prep] else []) ++ [REvent.invoke n]

/-- Trace of a run whose prep hook never raises, with m retried passes
followed by a final pass, the first invocation carrying index n. -/
def runTrace (hasPrep : Bool) (n m : Nat) : List REvent :=
  match m with
  | 0 => passEvents hasPrep n
  | m + 1 => passEvents hasPrep n ++ (REvent.sleep :: runTrace hasPrep (n + 1) m)

/-- Python values passed as arguments through the wrapper. A callable
(such as the prep hook) is an opaque handle. -/
inductive PyVal where
  | num (q : ℚ)
  | str (s : String)
  | pyNone
  | func (id : Nat)
deriving DecidableEq, Repr

/-- Keyword arguments of a call, as the association of names to values a
Python dict provides (keys are unique in an actual dict; lookup finds the
first binding). -/
abbrev Kwargs := List (String × PyVal)

/-- Dict lookup on keyword arguments. -/
def kwLookup (key : String) (kw : Kwargs) : Option PyVal :=
  List.lookup key kw

/-- Dict key removal on keyword arguments. -/
def kwRemove (key : String) (kw : Kwargs) : Kwargs :=
  kw.filter (fun q => q.1 != key)

/-- Model of kwargs.pop(key, default): returns the stored value and removes
the key when present, otherwise returns the default and leaves the dict
unchanged. -/
def popKw (key : String) (dflt : PyVal) (kw : Kwargs) : PyVal × Kwargs :=
  match kwLookup key kw with
  | some v => (v, kwRemove key kw)
  | none => (dflt, kw)

/-- Data computed at the top of the wrapper (src/ngse.py lines 74-81): the
three reserved keyword arguments are popped with the decorator
configuration as defaults, and the remaining positional and keyword
arguments are what f is invoked with. -/
structure CallSetup where
  retryTimeout : PyVal
  retryInterval : PyVal
  prep : PyVal
  fArgs : List PyVal
  fKwargs : Kwargs
deriving DecidableEq, Repr

/-- Model of lines 74-81 of src/ngse.py: retry_timeout, retry_interval and
prep are popped in that order from the call kwargs. -/
def wrapperSetup (cfg : RetryConfig) (args : List PyVal) (kwargs : Kwargs) : CallSetup :=
  let p1 := popKw "retry_timeout" (PyVal.num cfg.timeout) kwargs
  let p2 := popKw "retry_interval" (PyVal.num cfg.interval) p1.2
  let p3 := popKw "prep" PyVal.pyNone p2.2
  ⟨p1.1, p2.1, p3.1, args, p3.2⟩

/-- Numeric reading of a popped override. A non-numeric override would make
Python raise a TypeError at time() + retry_timeout; the claims only concern
numeric overrides, so other values are read as 0 here and never used by a
theorem. -/
def ratOfPyVal (v : PyVal) : ℚ :=
  match v with
  | .num q => q
  | _ => 0

/-- Full model of one call of the decorated function at the keyword
argument level: pop the reserved arguments, then run the loop with
end_time = t0 + retry_timeout, prep present when the popped prep value is
not None, and the behaviour of f given by an oracle parameterised by the
exact positional and keyword arguments f is invoked with. -/
def wrapperRun {α : Type} (cfg : RetryConfig) (args : List PyVal) (kwargs : Kwargs)
    (fBeh : List PyVal → Kwargs → Oracle α) (t0 : ℚ) (fuel : Nat) :
    Option (RetryOutcome α) :=
  let s := wrapperSetup cfg args kwargs
  retryLoop (match s.prep with | PyVal.pyNone => false | _ => true)
    (ratOfPyVal s.retryInterval) (t0 + ratOfPyVal s.retryTimeout)
    (fBeh s.fArgs s.fKwargs) fuel 0 0 t0

/-- Model of a ByClause (src/ngse.py lines 162-208): the underlying
selenium by string and the value-transform function. -/
structure ByClause where
  byStr : String
  convert : String → String

/-- Result of looking an entry up through ByDict: the underlying by string
and value-transform, together with whether the object is a NegativeByClause
(NegativeByClause.__init__ copies by and convert from its base, so a
negative wrapper carries the same two fields as the base;
src/ngse.py lines 216-220). -/
structure Strat where
  isNeg : Bool
  byStr : String
  convert : String → String

/-- Wrapping of a looked-up object by NegativeByClause(base): the class
becomes the negative one and by and convert are copied from the base. -/
def negativeByClauseOf (s : Strat) : Strat :=
  ⟨true, s.byStr, s.convert⟩

/-- The negative-key marker of ByDict, negative_prefix = "NOT_"
(src/ngse.py line 116). -/
def negMark : String := "NOT_"

/-- Test mirroring key.startswith(negative_prefix) on the character list of
the key. -/
def hasNegMark (k : String) : Bool :=
  negMark.data.isPrefixOf k.data

/-- Message of the ValueError raised by ByDict.__setitem__ for a key that
starts with the negative marker. -/
def setitemMsg : String :=
  "Keys in this dict cannot start with " ++ sq ++ negMark ++ sq

/-- Dict assignment d[k] = v on the underlying association list: the new
binding shadows and removes any previous binding of the key. -/
def dictInsert (d : List (String × ByClause)) (k : String) (v : ByClause) :
    List (String × ByClause) :=
  (k, v) :: d.filter (fun q => q.1 != k)

/-- Model of ByDict.__setitem__ (src/ngse.py lines 132-137): a string key
starting with the negative marker is rejected with a ValueError, any other
key is stored. -/
def byDictSetitem (d : List (String × ByClause)) (k : String) (v : ByClause) :
    Except Exc (List (String × ByClause)) :=
  if hasNegMark k then
    Except.error (Exc.valueError setitemMsg)
  else
    Except.ok (dictInsert d k v)

/-- Model of ByDict.__getitem__ (src/ngse.py lines 125-130) on the
character list of the key: a key starting with the negative marker is
looked up with the marker stripped (recursively, through __getitem__
again) and the result is wrapped by NegativeByClause; otherwise the stored
entry is returned, or a KeyError raised when the key is absent. -/
def byDictGetAux (d : List (String × ByClause)) (l : List Char) : Except Exc Strat :=
  if h : negMark.data.isPrefixOf l = true then
    match byDictGetAux d (l.drop negMark.data.length) with
    | .ok s => .ok (negativeByClauseOf s)
    | .error e => .error e
  else
    match List.lookup (String.mk l) d with
    | some c => .ok ⟨false, c.byStr, c.convert⟩
    | none => .error (.keyError (String.mk l))
termination_by l.length
decreasing_by
  have hlen : ∀ l2 l1 : List Char, l1.isPrefixOf l2 = true → l1.length ≤ l2.length := by
    intro l2
    induction l2 with
    | nil =>
      intro l1 hp
      cases l1 with
      | nil => simp
      | cons a t => simp [List.isPrefixOf] at hp
    | cons b t2 ih =>
      intro l1 hp
      cases l1 with
      | nil => simp
      | cons a t =>
        simp [List.isPrefixOf] at hp
        have ht := ih t (by simpa using hp.2)
        simp
        omega
  have h4 : negMark.data.length ≤ l.length := hlen l negMark.data h
  have h0 : negMark.data.length = 4 := by decide
  simp only [List.length_drop]
  omega

/-- ByDict lookup on a string key. -/
def byDictGet (d : List (String × ByClause)) (k : String) : Except Exc Strat :=
  byDictGetAux d k.data

/-- One assignment step when building a ByDict: an assignment that raises
(a negative-marked key) leaves the dict unchanged. -/
def byDictAssign (d : List (String × ByClause)) (kv : String × ByClause) :
    List (String × ByClause) :=
  match byDictSetitem d kv.1 kv.2 with
  | .ok d2 => d2
  | .error _ => d

/-- Building a ByDict by a sequence of assignments. -/
def applySets (sets : List (String × ByClause)) (d : List (String × ByClause)) :
    List (String × ByClause) :=
  sets.foldl byDictAssign d

/-- Suffix appended to the message of a NoSuchElementException by
ByClause.find (src/ngse.py lines 204-208). -/
def noSuchSuffix (w b : String) : String :=
  "\n  (Element: [" ++ w ++ "], By: [" ++ b ++ "])"

/-- Model of ByClause.find (src/ngse.py lines 196-208): convert the search
value, call browser.find_element with the by string and the converted
value, and re-raise a NoSuchElementException with the element and by
appended to its message; the element type is abstract and the browser is an
oracle from (by, value) to the driver call outcome. -/
def findModel {ε : Type} (browserFind : String → String → Except Exc ε)
    (s : Strat) (what : String) : Except Exc ε :=
  let w := s.convert what
  match browserFind s.byStr w with
  | .error (.noSuchElement m) => .error (.noSuchElement (m ++ noSuchSuffix w s.byStr))
  | r => r

/-- Model of the body of NegativeByClause.wait (src/ngse.py lines 230-235):
try find; a failure in cant_see_exceptions means the element has left, so
return normally; any other failure propagates; if find returns an element,
raise ElementStillThereError. The surrounding retry decorator of the method
is the retryLoop model above. -/
def negativeWait {ε : Type} (browserFind : String → String → Except Exc ε)
    (s : Strat) (what : String) : Except Exc Unit :=
  match findModel browserFind s what with
  | .ok _ => .error .elementStillThere
  | .error e => if cant_see_exceptions e then .ok () else .error e

/-- Witness oracle: the stub of the spec example, raising a transient
lookup failure on the first three invocations and returning 42 on the
fourth; prep never raises, every step is instantaneous. -/
def oW1 : Oracle PyVal where
  prepDur := fun _ => 0
  prepRes := fun _ => none
  opDur := fun _ => 0
  opRes := fun i =>
    if i < 3 then Except.error (Exc.noSuchElement "el") else Except.ok (PyVal.num 42)

/-- Witness oracle: every invocation takes 20 time units and raises the
same transient lookup failure. -/
def oW2 : Oracle PyVal where
  prepDur := fun _ => 0
  prepRes := fun _ => none
  opDur := fun _ => 20
  opRes := fun _ => Except.error (Exc.noSuchElement "gone")

/-- Witness oracle: the first invocation raises a non-transient front-end
error. -/
def oW3 : Oracle PyVal where
  prepDur := fun _ => 0
  prepRes := fun _ => none
  opDur := fun _ => 0
  opRes := fun _ => Except.error (Exc.frontEndError "Warning alert is on screen")

/-- Witness oracle: one failure of a chosen class, then success. -/
def oW4 : Oracle PyVal where
  prepDur := fun _ => 0
  prepRes := fun _ => none
  opDur := fun _ => 0
  opRes := fun i =>
    if i = 0 then Except.error (Exc.navigationError "404 Not Found")
    else Except.ok (PyVal.num 1)

/-- Witness oracle: transient visibility failures on the first two
invocations, then success, with a prep hook that never raises. -/
def oW5 : Oracle PyVal where
  prepDur := fun _ => 0
  prepRes := fun _ => none
  opDur := fun _ => 0
  opRes := fun i =>
    if i < 2 then Except.error (Exc.elementNotVisible "hidden")
    else Except.ok (PyVal.str "done")

/-- Witness oracle: the first invocation raises the WaitFailedError built
by Browser.click when a post-condition wait fails acceptably. -/
def oW7 : Oracle PyVal where
  prepDur := fun _ => 0
  prepRes := fun _ => none
  opDur := fun _ => 0
  opRes := fun _ =>
    Except.error (mkWaitFailedError "Wait failed" (Exc.noSuchElement "el"))

/-- Witness entry for the locator registry. -/
def wByClause : ByClause := ⟨"id", fun v => v⟩

/-- Witness browser oracle: find_element always returns an element. -/
def wBrowserFind : String → String → Except Exc Nat := fun _ _ => Except.ok 0

section Lemmas

variable {α : Type}

/-- Unfolding helper: the clock recursion steps one pass. -/
lemma clockAt_succ (hasPrep : Bool) (o : Oracle α) (interval : ℚ)
    (p n : Nat) (t : ℚ) (m : Nat) :
    clockAt hasPrep o interval p n t (m + 1) =
      clockAt hasPrep o interval (if hasPrep then p + 1 else p) (n + 1)
        ((if hasPrep then t + o.prepDur p else t) + o.opDur n + interval) m := rfl

/-- Workhorse: a run whose prep hook never raises, whose first m
invocations fail with a transient failure inside the deadline, and whose
invocation m succeeds, terminates with that success, m+1 invocations in
all, and the canonical trace. Stated for every loop entry point. -/
lemma retryLoop_ok_spec (hasPrep : Bool) (interval endTime : ℚ) (o : Oracle α) (v : α) :
    ∀ (m p n : Nat) (t : ℚ) (fuel : Nat), m < fuel →
    (hasPrep = true → ∀ i, i ≤ m → o.prepRes (p + i) = none) →
    (∀ i, i < m → transientFail (o.opRes (n + i)) = true) →
    o.opRes (n + m) = Except.ok v →
    (∀ i, i < m → clockAt hasPrep o interval p n t i ≤ endTime) →
    retryLoop hasPrep interval endTime o fuel p n t =
      some { result := Except.ok v, attempts := n + m + 1,
             preps := if hasPrep then p + m + 1 else p,
             trace := runTrace hasPrep n m,
             finalTime := clockAt hasPrep o interval p n t m } := by
  intro m
  induction m with
  | zero =>
    intro p n t fuel hfuel hprep hfail hok htime
    obtain ⟨fuel, rfl⟩ : ∃ f, fuel = f + 1 := ⟨fuel - 1, by omega⟩
    have hok' : o.opRes n = Except.ok v := by simpa using hok
    cases hasPrep with
    | false =>
      simp [retryLoop, hok', runTrace, passEvents, clockAt]
    | true =>
      have hp0 : o.prepRes p = none := by simpa using hprep rfl 0 (by omega)
      simp [retryLoop, hp0, hok', runTrace, passEvents, clockAt]
  | succ m ih =>
    intro p n t fuel hfuel hprep hfail hok htime
    obtain ⟨fuel, rfl⟩ : ∃ f, fuel = f + 1 := ⟨fuel - 1, by omega⟩
    have hfuel' : m < fuel := by omega
    -- first pass fails with a transient failure
    have hf0 : transientFail (o.opRes n) = true := by simpa using hfail 0 (by omega)
    obtain ⟨e, he, het⟩ : ∃ e, o.opRes n = Except.error e ∧ element_exceptions e = true := by
      cases hr : o.opRes n with
      | ok w => rw [hr] at hf0; simp [transientFail] at hf0
      | error e => exact ⟨e, rfl, by rw [hr] at hf0; simpa [transientFail] using hf0⟩
    have ht0 : clockAt hasPrep o interval p n t 0 ≤ endTime := htime 0 (by omega)
    -- hypotheses shifted for the recursive call
    have hprep' : hasPrep = true → ∀ i, i ≤ m → o.prepRes (p + 1 + i) = none := by
      intro hh i hi
      have := hprep hh (i + 1) (by omega)
      have hidx : p + (i + 1) = p + 1 + i := by omega
      rwa [hidx] at this
    have hfail' : ∀ i, i < m → transientFail (o.opRes (n + 1 + i)) = true := by
      intro i hi
      have := hfail (i + 1) (by omega)
      have hidx : n + (i + 1) = n + 1 + i := by omega
      rwa [hidx] at this
    have hok' : o.opRes (n + 1 + m) = Except.ok v := by
      have hidx : n + (m + 1) = n + 1 + m := by omega
      rwa [hidx] at hok
    cases hasPrep with
    | false =>
      have htime' : ∀ i, i < m →
          clockAt false o interval p (n + 1) (t + o.opDur n + interval) i ≤ endTime := by
        intro i hi
        have h1 := htime (i + 1) (by omega)
        rw [clockAt_succ] at h1
        simpa using h1
      have hrec := ih p (n + 1) (t + o.opDur n + interval) fuel hfuel'
        (by intro hh; exact absurd hh (by simp)) hfail' hok' htime'
      have hnd : ¬ endTime < t + o.opDur n := by
        have h2 : t + o.opDur n ≤ endTime := by simpa [clockAt] using ht0
        exact not_lt.mpr h2
      have hatt : n + 1 + m + 1 = n + (m + 1) + 1 := by omega
      simp only [retryLoop, Bool.false_eq_true, if_false, he, het, if_true,
        List.nil_append]
      rw [if_neg hnd, hrec]
      simp [runTrace, passEvents, clockAt_succ, hatt]
    | true =>
      have hp0 : o.prepRes p = none := by simpa using hprep rfl 0 (by omega)
      have htime' : ∀ i, i < m →
          clockAt true o interval (p + 1) (n + 1)
            (t + o.prepDur p + o.opDur n + interval) i ≤ endTime := by
        intro i hi
        have h1 := htime (i + 1) (by omega)
        rw [clockAt_succ] at h1
        simpa using h1
      have hrec := ih (p + 1) (n + 1) (t + o.prepDur p + o.opDur n + interval) fuel hfuel'
        hprep' hfail' hok' htime'
      have hnd : ¬ endTime < t + o.prepDur p + o.opDur n := by
        have h2 : t + o.prepDur p + o.opDur n ≤ endTime := by simpa [clockAt] using ht0
        exact not_lt.mpr h2
      have hatt : n + 1 + m + 1 = n + (m + 1) + 1 := by omega
      have hpre : p + 1 + m + 1 = p + (m + 1) + 1 := by omega
      simp only [retryLoop, if_true, hp0, he, het]
      rw [if_neg hnd, hrec]
      simp [runTrace, passEvents, clockAt_succ, hatt, hpre]

/-- Workhorse: a run whose prep hook never raises, whose first m
invocations fail with a transient failure inside the deadline, and whose
invocation m raises e in circumstances that stop the loop (e is not
transient, or the deadline has passed at the check), terminates by
re-raising exactly e, with m+1 invocations in all and the canonical trace. -/
lemma retryLoop_err_spec (hasPrep : Bool) (interval endTime : ℚ) (o : Oracle α) (e : Exc) :
    ∀ (m p n : Nat) (t : ℚ) (fuel : Nat), m < fuel →
    (hasPrep = true → ∀ i, i ≤ m → o.prepRes (p + i) = none) →
    (∀ i, i < m → transientFail (o.opRes (n + i)) = true) →
    o.opRes (n + m) = Except.error e →
    (∀ i, i < m → clockAt hasPrep o interval p n t i ≤ endTime) →
    (element_exceptions e = false ∨ endTime < clockAt hasPrep o interval p n t m) →
    retryLoop hasPrep interval endTime o fuel p n t =
      some { result := Except.error e, attempts := n + m + 1,
             preps := if hasPrep then p + m + 1 else p,
             trace := runTrace hasPrep n m,
             finalTime := clockAt hasPrep o interval p n t m } := by
  intro m
  induction m with
  | zero =>
    intro p n t fuel hfuel hprep hfail herr htime hstop
    obtain ⟨fuel, rfl⟩ : ∃ f, fuel = f + 1 := ⟨fuel - 1, by omega⟩
    have herr' : o.opRes n = Except.error e := by simpa using herr
    cases hasPrep with
    | false =>
      rcases hstop with hnt | hlate
      · simp [retryLoop, herr', hnt, runTrace, passEvents, clockAt]
      · have hlate' : endTime < t + o.opDur n := by simpa [clockAt] using hlate
        by_cases hte : element_exceptions e = true
        · simp [retryLoop, herr', hte, hlate', runTrace, passEvents, clockAt]
        · have hf : element_exceptions e = false := by simpa using hte
          simp [retryLoop, herr', hf, runTrace, passEvents, clockAt]
    | true =>
      have hp0 : o.prepRes p = none := by simpa using hprep rfl 0 (by omega)
      rcases hstop with hnt | hlate
      · simp [retryLoop, hp0, herr', hnt, runTrace, passEvents, clockAt]
      · have hlate' : endTime < t + o.prepDur p + o.opDur n := by
          simpa [clockAt] using hlate
        by_cases hte : element_exceptions e = true
        · simp [retryLoop, hp0, herr', hte, hlate', runTrace, passEvents, clockAt]
        · have hf : element_exceptions e = false := by simpa using hte
          simp [retryLoop, hp0, herr', hf, runTrace, passEvents, clockAt]
  | succ m ih =>
    intro p n t fuel hfuel hprep hfail herr htime hstop
    obtain ⟨fuel, rfl⟩ : ∃ f, fuel = f + 1 := ⟨fuel - 1, by omega⟩
    have hfuel' : m < fuel := by omega
    have hf0 : transientFail (o.opRes n) = true := by simpa using hfail 0 (by omega)
    obtain ⟨e0, he, het⟩ : ∃ e0, o.opRes n = Except.error e0 ∧ element_exceptions e0 = true := by
      cases hr : o.opRes n with
      | ok w => rw [hr] at hf0; simp [transientFail] at hf0
      | error e0 => exact ⟨e0, rfl, by rw [hr] at hf0; simpa [transientFail] using hf0⟩
    have ht0 : clockAt hasPrep o interval p n t 0 ≤ endTime := htime 0 (by omega)
    have hprep' : hasPrep = true → ∀ i, i ≤ m → o.prepRes (p + 1 + i) = none := by
      intro hh i hi
      have h1 := hprep hh (i + 1) (by omega)
      have hidx : p + (i + 1) = p + 1 + i := by omega
      rwa [hidx] at h1
    have hfail' : ∀ i, i < m → transientFail (o.opRes (n + 1 + i)) = true := by
      intro i hi
      have h1 := hfail (i + 1) (by omega)
      have hidx : n + (i + 1) = n + 1 + i := by omega
      rwa [hidx] at h1
    have herr' : o.opRes (n + 1 + m) = Except.error e := by
      have hidx : n + (m + 1) = n + 1 + m := by omega
      rwa [hidx] at herr
    cases hasPrep with
    | false =>
      have htime' : ∀ i, i < m →
          clockAt false o interval p (n + 1) (t + o.opDur n + interval) i ≤ endTime := by
        intro i hi
        have h1 := htime (i + 1) (by omega)
        rw [clockAt_succ] at h1
        simpa using h1
      have hstop' : element_exceptions e = false ∨
          endTime < clockAt false o interval p (n + 1) (t + o.opDur n + interval) m := by
        rcases hstop with hs | hs
        · exact Or.inl hs
        · refine Or.inr ?_
          rw [clockAt_succ] at hs
          simpa using hs
      have hrec := ih p (n + 1) (t + o.opDur n + interval) fuel hfuel'
        (by intro hh; exact absurd hh (by simp)) hfail' herr' htime' hstop'
      have hnd : ¬ endTime < t + o.opDur n := by
        have h2 : t + o.opDur n ≤ endTime := by simpa [clockAt] using ht0
        exact not_lt.mpr h2
      have hatt : n + 1 + m + 1 = n + (m + 1) + 1 := by omega
      simp only [retryLoop, Bool.false_eq_true, if_false, he, het, if_true,
        List.nil_append]
      rw [if_neg hnd, hrec]
      simp [runTrace, passEvents, clockAt_succ, hatt]
    | true =>
      have hp0 : o.prepRes p = none := by simpa using hprep rfl 0 (by omega)
      have htime' : ∀ i, i < m →
          clockAt true o interval (p + 1) (n + 1)
            (t + o.prepDur p + o.opDur n + interval) i ≤ endTime := by
        intro i hi
        have h1 := htime (i + 1) (by omega)
        rw [clockAt_succ] at h1
        simpa using h1
      have hstop' : element_exceptions e = false ∨
          endTime < clockAt true o interval (p + 1) (n + 1)
            (t + o.prepDur p + o.opDur n + interval) m := by
        rcases hstop with hs | hs
        · exact Or.inl hs
        · refine Or.inr ?_
          rw [clockAt_succ] at hs
          simpa using hs
      have hrec := ih (p + 1) (n + 1) (t + o.prepDur p + o.opDur n + interval) fuel hfuel'
        hprep' hfail' herr' htime' hstop'
      have hnd : ¬ endTime < t + o.prepDur p + o.opDur n := by
        have h2 : t + o.prepDur p + o.opDur n ≤ endTime := by simpa [clockAt] using ht0
        exact not_lt.mpr h2
      have hatt : n + 1 + m + 1 = n + (m + 1) + 1 := by omega
      have hpre : p + 1 + m + 1 = p + (m + 1) + 1 := by omega
      simp only [retryLoop, if_true, hp0, he, het]
      rw [if_neg hnd, hrec]
      simp [runTrace, passEvents, clockAt_succ, hatt, hpre]

/-- Number of sleep events in the canonical trace: one per retried pass. -/
lemma runTrace_count_sleep (hasPrep : Bool) :
    ∀ m n, (runTrace hasPrep n m).count REvent.sleep = m := by
  intro m
  induction m with
  | zero =>
    intro n
    cases hasPrep <;> simp [runTrace, passEvents, List.count_cons, List.count_append]
  | succ m ih =>
    intro n
    cases hasPrep <;>
      simp [runTrace, passEvents, List.count_cons, List.count_append, ih (n + 1)]

/-- Number of prep events in the canonical trace of a call with a prep
hook: one per pass. -/
lemma runTrace_count_prep :
    ∀ m n, (runTrace true n m).count REvent.prep = m + 1 := by
  intro m
  induction m with
  | zero =>
    intro n
    simp [runTrace, passEvents, List.count_cons, List.count_append]
  | succ m ih =>
    intro n
    simp [runTrace, passEvents, List.count_cons, List.count_append, ih (n + 1)]

/-- Number of invocation events in the canonical trace: one per pass. -/
lemma runTrace_count_invoke (hasPrep : Bool) :
    ∀ m n, (runTrace hasPrep n m).countP (fun ev => match ev with
      | REvent.invoke _ => true
      | _ => false) = m + 1 := by
  intro m
  induction m with
  | zero =>
    intro n
    cases hasPrep <;> simp [runTrace, passEvents, List.countP_cons, List.countP_append]
  | succ m ih =>
    intro n
    cases hasPrep <;>
      simp [runTrace, passEvents, List.countP_cons, List.countP_append, ih (n + 1)]

/-- In the canonical trace of a call with a prep hook, the i-th invocation
is immediately preceded by a prep event. -/
lemma runTrace_prep_precedes :
    ∀ m n i, i ≤ m → ∃ l1 l2,
      runTrace true n m = l1 ++ REvent.prep :: REvent.invoke (n + i) :: l2 := by
  intro m
  induction m with
  | zero =>
    intro n i hi
    have hz : i = 0 := by omega
    subst hz
    exact ⟨[], [], by simp [runTrace, passEvents]⟩
  | succ m ih =>
    intro n i hi
    cases i with
    | zero =>
      refine ⟨[], REvent.sleep :: runTrace true (n + 1) m, ?_⟩
      simp [runTrace, passEvents]
    | succ i =>
      obtain ⟨l1, l2, hl⟩ := ih (n + 1) i (by omega)
      refine ⟨REvent.prep :: REvent.invoke n :: REvent.sleep :: l1, l2, ?_⟩
      have hidx : n + 1 + i = n + (i + 1) := by omega
      rw [hidx] at hl
      simp [runTrace, passEvents, hl]

/-- Dict removal semantics on lookups: the removed key becomes absent. -/
lemma kwLookup_kwRemove_self (key : String) (kw : Kwargs) :
    kwLookup key (kwRemove key kw) = none := by
  induction kw with
  | nil => rfl
  | cons hd tl ih =>
    obtain ⟨a, b⟩ := hd
    by_cases hak : a = key
    · subst hak
      simpa [kwLookup, kwRemove, List.filter] using ih
    · have h1 : (a != key) = true := bne_iff_ne.mpr hak
      have h2 : (key == a) = false := beq_eq_false_iff_ne.mpr (Ne.symm hak)
      simpa [kwLookup, kwRemove, List.filter, List.lookup, h1, h2] using ih

/-- Dict removal semantics on lookups: every other key is untouched. -/
lemma kwLookup_kwRemove_ne (k key : String) (hne : k ≠ key) (kw : Kwargs) :
    kwLookup k (kwRemove key kw) = kwLookup k kw := by
  induction kw with
  | nil => rfl
  | cons hd tl ih =>
    obtain ⟨a, b⟩ := hd
    by_cases hak : a = key
    · subst hak
      have h2 : (k == a) = false := beq_eq_false_iff_ne.mpr hne
      simpa [kwLookup, kwRemove, List.filter, List.lookup, h2] using ih
    · have h1 : (a != key) = true := bne_iff_ne.mpr hak
      by_cases hka : k = a
      · subst hka
        simp [kwLookup, kwRemove, List.filter, List.lookup, h1]
      · have h3 : (k == a) = false := beq_eq_false_iff_ne.mpr hka
        simpa [kwLookup, kwRemove, List.filter, List.lookup, h1, h3] using ih

/-- Popping a key makes it absent from the remaining kwargs. -/
lemma kwLookup_popKw_self (key : String) (dflt : PyVal) (kw : Kwargs) :
    kwLookup key (popKw key dflt kw).2 = none := by
  unfold popKw
  cases h : kwLookup key kw with
  | none => simpa using h
  | some v => simpa using kwLookup_kwRemove_self key kw

/-- Popping a key leaves every other key bound as before. -/
lemma kwLookup_popKw_ne (k key : String) (dflt : PyVal) (kw : Kwargs) (hne : k ≠ key) :
    kwLookup k (popKw key dflt kw).2 = kwLookup k kw := by
  unfold popKw
  cases h : kwLookup key kw with
  | none => simp
  | some v => simpa using kwLookup_kwRemove_ne k key hne kw

/-- Value returned by pop: the stored value when present, the default
otherwise. -/
lemma popKw_fst (key : String) (dflt : PyVal) (kw : Kwargs) :
    (popKw key dflt kw).1 = (kwLookup key kw).getD dflt := by
  unfold popKw
  cases h : kwLookup key kw <;> simp

/-- Building a ByDict through __setitem__ never stores a key carrying the
negative marker: the rejecting branch leaves the dict unchanged and the
accepting branch inserts a key without the marker. -/
lemma applySets_no_negMark (sets : List (String × ByClause)) :
    ∀ d, (∀ q ∈ d, hasNegMark q.1 = false) →
      ∀ q ∈ applySets sets d, hasNegMark q.1 = false := by
  induction sets with
  | nil =>
    intro d hd q hq
    exact hd q (by simpa [applySets] using hq)
  | cons s tl ih =>
    intro d hd
    simp only [applySets, List.foldl_cons]
    apply ih
    intro q hq
    unfold byDictAssign at hq
    cases hins : byDictSetitem d s.1 s.2 with
    | error e => rw [hins] at hq; exact hd q hq
    | ok d2 =>
      rw [hins] at hq
      unfold byDictSetitem at hins
      by_cases hneg : hasNegMark s.1
      · simp [hneg] at hins
      · simp [hneg] at hins
        subst hins
        unfold dictInsert at hq
        rcases List.mem_cons.mp hq with h1 | h2
        · rw [h1]; simpa using hneg
        · exact hd q (List.mem_of_mem_filter h2)

/-- Appending strings appends their character lists. -/
lemma str_data_append (s t : String) : (s ++ t).data = s.data ++ t.data := by
  cases s
  cases t
  rfl

/-- Looking up the negative marker followed by a stored plain key derives a
negative wrapper of the stored entry, copying its by string and
value-transform. -/
lemma byDictGet_negMark_append (d : List (String × ByClause)) (K : String) (c : ByClause)
    (hK : hasNegMark K = false) (hs : List.lookup K d = some c) :
    byDictGet d (negMark ++ K) = Except.ok ⟨true, c.byStr, c.convert⟩ := by
  unfold byDictGet
  have hdata : (negMark ++ K).data = negMark.data ++ K.data := str_data_append _ _
  rw [hdata]
  have hd4 : negMark.data = ['N', 'O', 'T', '_'] := by decide
  have hpre : negMark.data.isPrefixOf (negMark.data ++ K.data) = true := by
    rw [hd4]
    simp [List.isPrefixOf]
  rw [byDictGetAux]
  rw [dif_pos hpre, List.drop_left]
  have hKmk : String.mk K.data = K := rfl
  have hnp : ¬ negMark.data.isPrefixOf K.data = true := by
    unfold hasNegMark at hK
    simp [hK]
  rw [byDictGetAux]
  rw [dif_neg hnp, hKmk, hs]
  rfl

end Lemmas

/-- C1: an operation that succeeds on its Nth invocation after only
transient failures (with the deadline never passed at the checks that let
the loop continue, and enough fuel to model the unbounded loop) makes the
decorated call return that successful result unchanged, with the operation
invoked exactly N times. -/
theorem retry_success_passthrough {α : Type} (cfg : RetryConfig) (hasPrep : Bool)
    (o : Oracle α) (tOv iOv : Option ℚ) (t0 : ℚ) (fuel N : Nat) (v : α)
    (hN : 1 ≤ N) (hfuel : N ≤ fuel)
    (hprep : hasPrep = true → ∀ i, i < N → o.prepRes i = none)
    (hfail : ∀ i, i < N - 1 → transientFail (o.opRes i) = true)
    (hok : o.opRes (N - 1) = Except.ok v)
    (htime : ∀ i, i < N - 1 →
      clockAt hasPrep o (iOv.getD cfg.interval) 0 0 t0 i ≤ t0 + tOv.getD cfg.timeout) :
    ∃ out, retryCall cfg hasPrep o tOv iOv t0 fuel = some out ∧
      out.result = Except.ok v ∧ out.attempts = N := by
  unfold retryCall
  obtain ⟨m, rfl⟩ : ∃ m, N = m + 1 := ⟨N - 1, by omega⟩
  have h := retryLoop_ok_spec hasPrep (iOv.getD cfg.interval) (t0 + tOv.getD cfg.timeout)
    o v m 0 0 t0 fuel (by omega)
    (by intro hh i hi; simpa using hprep hh i (by omega))
    (by intro i hi; simpa using hfail i (by simpa using hi))
    (by simpa using hok)
    (by intro i hi; simpa using htime i (by simpa using hi))
  exact ⟨_, h, rfl, by simp⟩

/-- C1 witness: the stub of the spec example returns 42 with exactly four
invocations. -/
theorem retry_success_passthrough_witness :
    ∃ out, retryCall defaultRetryConfig false oW1 none none 0 4 = some out ∧
      out.result = Except.ok (PyVal.num 42) ∧ out.attempts = 4 :=
  retry_success_passthrough defaultRetryConfig false oW1 none none 0 4 4 (PyVal.num 42)
    (by decide) (by decide) (by decide) (by decide) (by rfl)
    (by intro i hi; interval_cases i <;> norm_num [clockAt, oW1, defaultRetryConfig])

/-- C2: when every invocation raises a transient failure and the deadline
has passed at the check after invocation m (the first m checks being in
time), the decorated call re-raises exactly the failure object produced by
the last invocation, never a synthetic timeout error. -/
theorem retry_timeout_propagates_last {α : Type} (cfg : RetryConfig) (hasPrep : Bool)
    (o : Oracle α) (tOv iOv : Option ℚ) (t0 : ℚ) (fuel m : Nat) (E : Nat → Exc)
    (hfuel : m < fuel)
    (hprep : hasPrep = true → ∀ i, i ≤ m → o.prepRes i = none)
    (hfail : ∀ i, i ≤ m → o.opRes i = Except.error (E i) ∧ element_exceptions (E i) = true)
    (htime : ∀ i, i < m →
      clockAt hasPrep o (iOv.getD cfg.interval) 0 0 t0 i ≤ t0 + tOv.getD cfg.timeout)
    (hlate : t0 + tOv.getD cfg.timeout <
      clockAt hasPrep o (iOv.getD cfg.interval) 0 0 t0 m) :
    ∃ out, retryCall cfg hasPrep o tOv iOv t0 fuel = some out ∧
      out.result = Except.error (E m) ∧ out.attempts = m + 1 := by
  unfold retryCall
  have h := retryLoop_err_spec hasPrep (iOv.getD cfg.interval) (t0 + tOv.getD cfg.timeout)
    o (E m) m 0 0 t0 fuel hfuel
    (by intro hh i hi; simpa using hprep hh i hi)
    (by
      intro i hi
      have h1 := hfail i (by omega)
      simp [transientFail, h1.1, h1.2])
    (by simpa using (hfail m (le_refl m)).1)
    htime
    (Or.inr hlate)
  exact ⟨_, h, rfl, by simp⟩

/-- C2 witness: with 20-unit invocations, the deadline (30) has passed at
the second check, and the second failure object itself is re-raised after
exactly two invocations. -/
theorem retry_timeout_propagates_last_witness :
    ∃ out, retryCall defaultRetryConfig false oW2 none none 0 2 = some out ∧
      out.result = Except.error (Exc.noSuchElement "gone") ∧ out.attempts = 2 :=
  retry_timeout_propagates_last defaultRetryConfig false oW2 none none 0 2 1
    (fun _ => Exc.noSuchElement "gone")
    (by decide) (by decide) (by intro i hi; exact ⟨rfl, rfl⟩)
    (by intro i hi; interval_cases i <;> norm_num [clockAt, oW2, defaultRetryConfig])
    (by norm_num [clockAt, oW2, defaultRetryConfig])

/-- C3: a failure outside element_exceptions propagates at once: the pass
that raises it performs no sleep afterwards (the trace holds exactly one
sleep per earlier retried pass), and when it happens on the first
invocation the operation is invoked exactly once. -/
theorem retry_nontransient_immediate {α : Type} (cfg : RetryConfig) (hasPrep : Bool)
    (o : Oracle α) (tOv iOv : Option ℚ) (t0 : ℚ) (fuel m : Nat) (e : Exc)
    (hfuel : m < fuel)
    (hprep : hasPrep = true → ∀ i, i ≤ m → o.prepRes i = none)
    (hfail : ∀ i, i < m → transientFail (o.opRes i) = true)
    (htime : ∀ i, i < m →
      clockAt hasPrep o (iOv.getD cfg.interval) 0 0 t0 i ≤ t0 + tOv.getD cfg.timeout)
    (herr : o.opRes m = Except.error e)
    (hnt : element_exceptions e = false) :
    ∃ out, retryCall cfg hasPrep o tOv iOv t0 fuel = some out ∧
      out.result = Except.error e ∧ out.attempts = m + 1 ∧
      out.trace.count REvent.sleep = m := by
  unfold retryCall
  have h := retryLoop_err_spec hasPrep (iOv.getD cfg.interval) (t0 + tOv.getD cfg.timeout)
    o e m 0 0 t0 fuel hfuel
    (by intro hh i hi; simpa using hprep hh i hi)
    (by intro i hi; simpa using hfail i hi)
    (by simpa using herr)
    htime
    (Or.inl hnt)
  refine ⟨_, h, rfl, by simp, ?_⟩
  simpa using runTrace_count_sleep hasPrep m 0

/-- C3 witness: a front-end error on the first invocation propagates with
exactly one invocation and no sleep at all. -/
theorem retry_nontransient_immediate_witness :
    ∃ out, retryCall defaultRetryConfig false oW3 none none 0 5 = some out ∧
      out.result = Except.error (Exc.frontEndError "Warning alert is on screen") ∧
      out.attempts = 0 + 1 ∧ out.trace.count REvent.sleep = 0 :=
  retry_nontransient_immediate defaultRetryConfig false oW3 none none 0 5 0
    (Exc.frontEndError "Warning alert is on screen")
    (by decide) (by decide) (by decide) (by decide) (by rfl) (by decide)

/-- C4: the transient set is exactly the module-level element_exceptions
tuple: a failure is absorbed by a loop pass (operation retried and its next
success returned) precisely when it is one of InvalidElementStateException,
NoSuchElementException, ElementNotVisibleException, ElementStillThereError
or ValueError, and a failure of any other class ends the call on its first
invocation. -/
theorem retry_transient_set_is_closed :
    (∀ e : Exc, element_exceptions e = true ↔
      ((∃ m, e = Exc.invalidElementState m) ∨ (∃ m, e = Exc.noSuchElement m) ∨
       (∃ m, e = Exc.elementNotVisible m) ∨ e = Exc.elementStillThere ∨
       (∃ m, e = Exc.valueError m))) ∧
    (∀ (α : Type) (e : Exc) (v : α) (cfg : RetryConfig) (o : Oracle α) (fuel : Nat),
      2 ≤ fuel → 0 ≤ cfg.timeout →
      o.opRes 0 = Except.error e → o.opRes 1 = Except.ok v →
      o.opDur 0 = 0 → o.opDur 1 = 0 →
      ((element_exceptions e = false →
        ∃ out, retryCall cfg false o none none 0 fuel = some out ∧
          out.result = Except.error e ∧ out.attempts = 1) ∧
       (element_exceptions e = true →
        ∃ out, retryCall cfg false o none none 0 fuel = some out ∧
          out.result = Except.ok v ∧ out.attempts = 2))) := by
  constructor
  · intro e
    cases e <;> simp [element_exceptions]
  · intro α e v cfg o fuel hfuel htm h0 h1 d0 d1
    constructor
    · intro hnt
      unfold retryCall
      simp only [Option.getD_none]
      have h := retryLoop_err_spec false cfg.interval (0 + cfg.timeout) o e 0 0 0 0 fuel
        (by omega)
        (by intro hh; exact absurd hh (by simp))
        (by intro i hi; omega)
        (by simpa using h0)
        (by intro i hi; omega)
        (Or.inl hnt)
      exact ⟨_, h, rfl, by simp⟩
    · intro ht
      unfold retryCall
      simp only [Option.getD_none]
      have h := retryLoop_ok_spec false cfg.interval (0 + cfg.timeout) o v 1 0 0 0 fuel
        (by omega)
        (by intro hh; exact absurd hh (by simp))
        (by
          intro i hi
          have hz : i = 0 := by omega
          subst hz
          simp [transientFail, h0, ht])
        (by simpa using h1)
        (by
          intro i hi
          have hz : i = 0 := by omega
          subst hz
          simp [clockAt, d0]
          linarith)
      exact ⟨_, h, rfl, by simp⟩

/-- C4 witness: a navigation error (outside the tuple) is propagated from
the first invocation even though the next invocation would have
succeeded. -/
theorem retry_transient_set_is_closed_witness :
    ∃ out, retryCall defaultRetryConfig false oW4 none none 0 2 = some out ∧
      out.result = Except.error (Exc.navigationError "404 Not Found") ∧
      out.attempts = 1 :=
  (retry_transient_set_is_closed.2 PyVal (Exc.navigationError "404 Not Found")
    (PyVal.num 1) defaultRetryConfig oW4 2 (by decide)
    (by norm_num [defaultRetryConfig]) (by rfl) (by rfl)
    (by rfl) (by rfl)).1 (by decide)

/-- C5: when a prep hook is supplied (and itself returns normally), it runs
exactly once before each invocation of the operation: a call with N
invocations has N prep runs, the trace is the canonical alternation, and
every invocation is immediately preceded by a prep event. Stated for every
terminating run, whether it ends in success or in a propagated failure. -/
theorem retry_prep_once_before_each_attempt {α : Type} (cfg : RetryConfig)
    (o : Oracle α) (tOv iOv : Option ℚ) (t0 : ℚ) (fuel N : Nat)
    (hN : 1 ≤ N) (hfuel : N ≤ fuel)
    (hprep : ∀ i, i < N → o.prepRes i = none)
    (hfail : ∀ i, i < N - 1 → transientFail (o.opRes i) = true)
    (htime : ∀ i, i < N - 1 →
      clockAt true o (iOv.getD cfg.interval) 0 0 t0 i ≤ t0 + tOv.getD cfg.timeout)
    (hfinal : (∃ v, o.opRes (N - 1) = Except.ok v) ∨
      (∃ e, o.opRes (N - 1) = Except.error e ∧
        (element_exceptions e = false ∨
         t0 + tOv.getD cfg.timeout <
           clockAt true o (iOv.getD cfg.interval) 0 0 t0 (N - 1)))) :
    ∃ out, retryCall cfg true o tOv iOv t0 fuel = some out ∧
      out.attempts = N ∧ out.preps = N ∧
      out.trace.count REvent.prep = N ∧
      (∀ i, i < N → ∃ l1 l2, out.trace = l1 ++ REvent.prep :: REvent.invoke i :: l2) := by
  unfold retryCall
  obtain ⟨m, rfl⟩ : ∃ m, N = m + 1 := ⟨N - 1, by omega⟩
  rcases hfinal with ⟨v, hv⟩ | ⟨e, he, hstop⟩
  · have h := retryLoop_ok_spec true (iOv.getD cfg.interval) (t0 + tOv.getD cfg.timeout)
      o v m 0 0 t0 fuel (by omega)
      (by intro hh i hi; simpa using hprep i (by omega))
      (by intro i hi; simpa using hfail i (by simpa using hi))
      (by simpa using hv)
      (by intro i hi; simpa using htime i (by simpa using hi))
    refine ⟨_, h, by simp, by simp, ?_, ?_⟩
    · simpa using runTrace_count_prep m 0
    · intro i hi
      obtain ⟨l1, l2, hl⟩ := runTrace_prep_precedes m 0 i (by omega)
      exact ⟨l1, l2, by simpa using hl⟩
  · have h := retryLoop_err_spec true (iOv.getD cfg.interval) (t0 + tOv.getD cfg.timeout)
      o e m 0 0 t0 fuel (by omega)
      (by intro hh i hi; simpa using hprep i (by omega))
      (by intro i hi; simpa using hfail i (by simpa using hi))
      (by simpa using he)
      (by intro i hi; simpa using htime i (by simpa using hi))
      (by simpa using hstop)
    refine ⟨_, h, by simp, by simp, ?_, ?_⟩
    · simpa using runTrace_count_prep m 0
    · intro i hi
      obtain ⟨l1, l2, hl⟩ := runTrace_prep_precedes m 0 i (by omega)
      exact ⟨l1, l2, by simpa using hl⟩

/-- C5 witness: three invocations, three prep runs, the canonical
alternating trace. -/
theorem retry_prep_once_before_each_attempt_witness :
    ∃ out, retryCall defaultRetryConfig true oW5 none none 0 3 = some out ∧
      out.attempts = 3 ∧ out.preps = 3 ∧
      out.trace.count REvent.prep = 3 ∧
      (∀ i, i < 3 → ∃ l1 l2, out.trace = l1 ++ REvent.prep :: REvent.invoke i :: l2) :=
  retry_prep_once_before_each_attempt defaultRetryConfig oW5 none none 0 3 3
    (by decide) (by decide) (by decide) (by decide)
    (by intro i hi; interval_cases i <;> norm_num [clockAt, oW5, defaultRetryConfig])
    (Or.inl ⟨PyVal.str "done", by rfl⟩)

/-- C6: a per-call retry_timeout or retry_interval override takes
precedence over the decorator defaults, it governs the deadline and the
sleep interval of that call, and a call whose kwargs carry no override uses
the configured defaults (which no prior call can have changed: the defaults
live in the immutable decorator closure that every call reads afresh). -/
theorem retry_override_precedence (cfg : RetryConfig) (args args2 : List PyVal)
    (kwargs kwargs2 : Kwargs) (q r : ℚ) :
    ((kwLookup "retry_timeout" kwargs = some (PyVal.num q) →
      (wrapperSetup cfg args kwargs).retryTimeout = PyVal.num q) ∧
     (kwLookup "retry_interval" kwargs = some (PyVal.num r) →
      (wrapperSetup cfg args kwargs).retryInterval = PyVal.num r)) ∧
    ((kwLookup "retry_timeout" kwargs2 = none →
      (wrapperSetup cfg args2 kwargs2).retryTimeout = PyVal.num cfg.timeout) ∧
     (kwLookup "retry_interval" kwargs2 = none →
      (wrapperSetup cfg args2 kwargs2).retryInterval = PyVal.num cfg.interval)) ∧
    (∀ (α : Type) (fBeh : List PyVal → Kwargs → Oracle α) (t0 : ℚ) (fuel : Nat),
      kwLookup "retry_timeout" kwargs = some (PyVal.num q) →
      kwLookup "retry_interval" kwargs = some (PyVal.num r) →
      wrapperRun cfg args kwargs fBeh t0 fuel =
        retryLoop
          (match (wrapperSetup cfg args kwargs).prep with
            | PyVal.pyNone => false
            | _ => true)
          r (t0 + q)
          (fBeh args (wrapperSetup cfg args kwargs).fKwargs) fuel 0 0 t0) := by
  have hto : ∀ kw, kwLookup "retry_timeout" kw = some (PyVal.num q) →
      (wrapperSetup cfg args kw).retryTimeout = PyVal.num q := by
    intro kw h
    show (popKw "retry_timeout" (PyVal.num cfg.timeout) kw).1 = PyVal.num q
    rw [popKw_fst, h]
    rfl
  have hio : ∀ kw, kwLookup "retry_interval" kw = some (PyVal.num r) →
      (wrapperSetup cfg args kw).retryInterval = PyVal.num r := by
    intro kw h
    have h1 : kwLookup "retry_interval"
        (popKw "retry_timeout" (PyVal.num cfg.timeout) kw).2 = some (PyVal.num r) := by
      rw [kwLookup_popKw_ne _ _ _ _ (by decide)]
      exact h
    show (popKw "retry_interval" (PyVal.num cfg.interval)
      (popKw "retry_timeout" (PyVal.num cfg.timeout) kw).2).1 = PyVal.num r
    rw [popKw_fst, h1]
    rfl
  refine ⟨⟨fun h => hto kwargs h, fun h => hio kwargs h⟩, ⟨?_, ?_⟩, ?_⟩
  · intro h
    show (popKw "retry_timeout" (PyVal.num cfg.timeout) kwargs2).1 = PyVal.num cfg.timeout
    rw [popKw_fst, h]
    rfl
  · intro h
    have h1 : kwLookup "retry_interval"
        (popKw "retry_timeout" (PyVal.num cfg.timeout) kwargs2).2 = none := by
      rw [kwLookup_popKw_ne _ _ _ _ (by decide)]
      exact h
    show (popKw "retry_interval" (PyVal.num cfg.interval)
      (popKw "retry_timeout" (PyVal.num cfg.timeout) kwargs2).2).1 = PyVal.num cfg.interval
    rw [popKw_fst, h1]
    rfl
  · intro α fBeh t0 fuel ht hi
    show retryLoop
        (match (wrapperSetup cfg args kwargs).prep with
          | PyVal.pyNone => false
          | _ => true)
        (ratOfPyVal (wrapperSetup cfg args kwargs).retryInterval)
        (t0 + ratOfPyVal (wrapperSetup cfg args kwargs).retryTimeout)
        (fBeh (wrapperSetup cfg args kwargs).fArgs (wrapperSetup cfg args kwargs).fKwargs)
        fuel 0 0 t0 = _
    rw [hio kwargs hi, hto kwargs ht]
    rfl

/-- C6 witness: an override of 5 wins for its own call, and a call with no
override reads the configured default 30. -/
theorem retry_override_precedence_witness :
    (wrapperSetup defaultRetryConfig [] [("retry_timeout", PyVal.num 5)]).retryTimeout
        = PyVal.num 5 ∧
    (wrapperSetup defaultRetryConfig [] []).retryTimeout = PyVal.num 30 :=
  ⟨(retry_override_precedence defaultRetryConfig [] [] [("retry_timeout", PyVal.num 5)]
      [] 5 0).1.1 (by rfl),
   (retry_override_precedence defaultRetryConfig [] [] [] [] 5 0).2.1.1 (by rfl)⟩

/-- C7: the two wrapper error kinds both carry the given message (composed
with the repr of the cause) and the original causing failure object,
neither is in element_exceptions, and a decorated call whose operation
raises one of them propagates it unchanged after a single invocation. -/
theorem wrapper_errors_not_retried (msg : String) (cause : Exc) :
    excCause (mkWaitFailedError msg cause) = some cause ∧
    excMessage (mkWaitFailedError msg cause) = msg ++ ", caused by " ++ reprExc cause ∧
    element_exceptions (mkWaitFailedError msg cause) = false ∧
    excCause (mkDontRetryError msg cause) = some cause ∧
    excMessage (mkDontRetryError msg cause) = msg ++ ", caused by " ++ reprExc cause ∧
    element_exceptions (mkDontRetryError msg cause) = false ∧
    (∀ (α : Type) (cfg : RetryConfig) (o : Oracle α) (t0 : ℚ) (fuel : Nat), 1 ≤ fuel →
      (o.opRes 0 = Except.error (mkWaitFailedError msg cause) →
        ∃ out, retryCall cfg false o none none t0 fuel = some out ∧
          out.result = Except.error (mkWaitFailedError msg cause) ∧ out.attempts = 1) ∧
      (o.opRes 0 = Except.error (mkDontRetryError msg cause) →
        ∃ out, retryCall cfg false o none none t0 fuel = some out ∧
          out.result = Except.error (mkDontRetryError msg cause) ∧ out.attempts = 1)) := by
  refine ⟨rfl, rfl, rfl, rfl, rfl, rfl, ?_⟩
  intro α cfg o t0 fuel hfuel
  constructor
  · intro h0
    unfold retryCall
    simp only [Option.getD_none]
    have h := retryLoop_err_spec false cfg.interval (t0 + cfg.timeout) o
      (mkWaitFailedError msg cause) 0 0 0 t0 fuel (by omega)
      (by intro hh; exact absurd hh (by simp))
      (by intro i hi; omega)
      (by simpa using h0)
      (by intro i hi; omega)
      (Or.inl rfl)
    exact ⟨_, h, rfl, by simp⟩
  · intro h0
    unfold retryCall
    simp only [Option.getD_none]
    have h := retryLoop_err_spec false cfg.interval (t0 + cfg.timeout) o
      (mkDontRetryError msg cause) 0 0 0 t0 fuel (by omega)
      (by intro hh; exact absurd hh (by simp))
      (by intro i hi; omega)
      (by simpa using h0)
      (by intro i hi; omega)
      (Or.inl rfl)
    exact ⟨_, h, rfl, by simp⟩

/-- C7 witness: a WaitFailedError raised under an enclosing retry decorator
propagates unchanged after one invocation, and carries its cause. -/
theorem wrapper_errors_not_retried_witness :
    excCause (mkWaitFailedError "Wait failed" (Exc.noSuchElement "el"))
        = some (Exc.noSuchElement "el") ∧
    (∃ out, retryCall defaultRetryConfig false oW7 none none 0 1 = some out ∧
      out.result = Except.error (mkWaitFailedError "Wait failed" (Exc.noSuchElement "el")) ∧
      out.attempts = 1) :=
  ⟨(wrapper_errors_not_retried "Wait failed" (Exc.noSuchElement "el")).1,
   ((wrapper_errors_not_retried "Wait failed" (Exc.noSuchElement "el")).2.2.2.2.2.2
      PyVal defaultRetryConfig oW7 0 1 (by decide)).1 (by rfl)⟩

/-- C8: ByDict.__setitem__ rejects with a ValueError every key that starts
with the negative marker, so a dict built through it stores no such key;
and for a stored key K, looking up the marker followed by K yields a
freshly derived negative wrapper of the entry stored under K, carrying the
same underlying by string and value-transform function. -/
theorem bydict_negative_keys :
    (∀ (d : List (String × ByClause)) (k : String) (v : ByClause),
      hasNegMark k = true →
      byDictSetitem d k v = Except.error (Exc.valueError setitemMsg)) ∧
    (∀ (sets : List (String × ByClause)) (q : String × ByClause),
      q ∈ applySets sets [] → hasNegMark q.1 = false) ∧
    (∀ (d : List (String × ByClause)) (K : String) (c : ByClause),
      hasNegMark K = false → List.lookup K d = some c →
      byDictGet d (negMark ++ K) = Except.ok ⟨true, c.byStr, c.convert⟩) := by
  refine ⟨?_, ?_, ?_⟩
  · intro d k v hk
    simp [byDictSetitem, hk]
  · intro sets q hq
    exact applySets_no_negMark sets [] (by simp) q hq
  · intro d K c hK hs
    exact byDictGet_negMark_append d K c hK hs

/-- C8 witness: storing under a NOT_ key raises, and looking up NOT_ID in a
registry storing ID yields the negative wrapper of the stored entry. -/
theorem bydict_negative_keys_witness :
    byDictSetitem [] "NOT_X" wByClause = Except.error (Exc.valueError setitemMsg) ∧
    byDictGet [("ID", wByClause)] (negMark ++ "ID")
      = Except.ok ⟨true, "id", wByClause.convert⟩ :=
  ⟨bydict_negative_keys.1 [] "NOT_X" wByClause (by decide),
   bydict_negative_keys.2.2 [("ID", wByClause)] "ID" wByClause (by decide) (by rfl)⟩

/-- C9: the wrapper pops the three reserved keyword arguments before
invoking the wrapped operation, so the operation never receives them, while
the positional arguments and every other keyword argument reach it
unchanged (and, by construction of wrapperRun, the same cleaned arguments
are what every invocation of the operation observes). -/
theorem retry_reserved_kwargs_stripped (cfg : RetryConfig) (args : List PyVal)
    (kwargs : Kwargs) :
    (wrapperSetup cfg args kwargs).fArgs = args ∧
    kwLookup "retry_timeout" (wrapperSetup cfg args kwargs).fKwargs = none ∧
    kwLookup "retry_interval" (wrapperSetup cfg args kwargs).fKwargs = none ∧
    kwLookup "prep" (wrapperSetup cfg args kwargs).fKwargs = none ∧
    (∀ k, k ≠ "retry_timeout" → k ≠ "retry_interval" → k ≠ "prep" →
      kwLookup k (wrapperSetup cfg args kwargs).fKwargs = kwLookup k kwargs) := by
  have hkw : (wrapperSetup cfg args kwargs).fKwargs =
      (popKw "prep" PyVal.pyNone
        (popKw "retry_interval" (PyVal.num cfg.interval)
          (popKw "retry_timeout" (PyVal.num cfg.timeout) kwargs).2).2).2 := rfl
  refine ⟨rfl, ?_, ?_, ?_, ?_⟩
  · rw [hkw, kwLookup_popKw_ne _ _ _ _ (by decide),
      kwLookup_popKw_ne _ _ _ _ (by decide), kwLookup_popKw_self]
  · rw [hkw, kwLookup_popKw_ne _ _ _ _ (by decide), kwLookup_popKw_self]
  · rw [hkw, kwLookup_popKw_self]
  · intro k h1 h2 h3
    rw [hkw, kwLookup_popKw_ne _ _ _ _ h3, kwLookup_popKw_ne _ _ _ _ h2,
      kwLookup_popKw_ne _ _ _ _ h1]

/-- C9 witness: with a timeout override and an unrelated keyword argument,
the reserved key is gone and the unrelated one is untouched. -/
theorem retry_reserved_kwargs_stripped_witness :
    kwLookup "retry_timeout"
      (wrapperSetup defaultRetryConfig [PyVal.num 7]
        [("retry_timeout", PyVal.num 1), ("x", PyVal.str "y")]).fKwargs = none ∧
    kwLookup "x"
      (wrapperSetup defaultRetryConfig [PyVal.num 7]
        [("retry_timeout", PyVal.num 1), ("x", PyVal.str "y")]).fKwargs
      = kwLookup "x" [("retry_timeout", PyVal.num 1), ("x", PyVal.str "y")] :=
  ⟨(retry_reserved_kwargs_stripped defaultRetryConfig [PyVal.num 7]
      [("retry_timeout", PyVal.num 1), ("x", PyVal.str "y")]).2.1,
   (retry_reserved_kwargs_stripped defaultRetryConfig [PyVal.num 7]
      [("retry_timeout", PyVal.num 1), ("x", PyVal.str "y")]).2.2.2.2 "x"
      (by decide) (by decide) (by decide)⟩

/-- C10: the negative wait returns normally exactly when the underlying
find raises a failure in cant_see_exceptions (absent element, element not
visible, or a ValueError); when find returns an element it raises
ElementStillThereError, which element_exceptions classifies as transient
for the surrounding retry loop; any other failure of find propagates; and
cant_see_exceptions is exactly those three classes. -/
theorem negative_wait_spec {ε : Type} (browserFind : String → String → Except Exc ε)
    (s : Strat) (what : String) :
    (negativeWait browserFind s what = Except.ok () ↔
      (∃ e, findModel browserFind s what = Except.error e ∧
        cant_see_exceptions e = true)) ∧
    (∀ el, findModel browserFind s what = Except.ok el →
      negativeWait browserFind s what = Except.error Exc.elementStillThere) ∧
    (∀ e, findModel browserFind s what = Except.error e →
      cant_see_exceptions e = false →
      negativeWait browserFind s what = Except.error e) ∧
    element_exceptions Exc.elementStillThere = true ∧
    (∀ e, cant_see_exceptions e = true ↔
      ((∃ m, e = Exc.noSuchElement m) ∨ (∃ m, e = Exc.elementNotVisible m) ∨
       (∃ m, e = Exc.valueError m))) := by
  refine ⟨?_, ?_, ?_, rfl, ?_⟩
  · unfold negativeWait
    cases hr : findModel browserFind s what with
    | ok el => simp
    | error e =>
      by_cases hc : cant_see_exceptions e = true
      · simp [hc]
      · have hf : cant_see_exceptions e = false := by simpa using hc
        simp [hf]
  · intro el h
    unfold negativeWait
    rw [h]
  · intro e h hf
    unfold negativeWait
    rw [h]
    simp [hf]
  · intro e
    cases e <;> simp [cant_see_exceptions]

/-- C10 witness: when find returns an element, the negative wait raises
ElementStillThereError. -/
theorem negative_wait_spec_witness :
    negativeWait wBrowserFind ⟨false, "css selector", fun v => v⟩ "sel"
      = Except.error Exc.elementStillThere :=
  (negative_wait_spec wBrowserFind ⟨false, "css selector", fun v => v⟩ "sel").2.1 0 (by rfl)

end NgSe
